import Mathlib

/-!
Verification of the surveyor benchmarking runner (src/surveyor) against its
specification. The data model and the operations come from models.py, the
resource accounting and task supervision from runner.py, and the container
watching from podman.py. Machine times are integers (seconds or microseconds
since the Unix epoch); nullable database columns are Options; the dynamically
typed columns hold a small model of Python values.
-/

namespace Surveyor

/-- Minimal JSON value model, for the stats and result columns and for the
results.json artefact. -/
inductive Json where
  | null
  | bool (b : Bool)
  | num (n : Int)
  | str (s : String)
  | arr (elems : List Json)
  | obj (fields : List (String × Json))

/-- A Python value as stored in the dynamically typed task columns. -/
inductive PyVal where
  | none
  | int (n : Int)
  | str (s : String)
  | json (j : Json)

/-- The TaskState enum of models.py (lines 51-56). -/
inductive TaskState where
  | created
  | pending
  | assigned
  | evaluated
  | cancelled
  deriving DecidableEq, Repr

/-- The RuntimeEnv row of models.py (lines 31-41), limit columns only. -/
structure RuntimeEnv where
  id : Nat
  cpuLimit : Int
  memoryLimit : Int
  cpuTimeLimit : Int
  wallClockTimeLimit : Int
  deriving DecidableEq, Repr

/-- The BenchmarkTask row of models.py (lines 58-80), with the RuntimeEnv of its
suite joined in (each suite owns exactly one RuntimeEnv). -/
structure BenchmarkTask where
  id : Nat
  state : TaskState
  command : String
  assignedAt : Option Int
  updatedAt : Option Int
  assignee : Option String
  exitcode : PyVal
  buildOutput : PyVal
  output : PyVal
  stats : PyVal
  result : PyVal
  env : RuntimeEnv

/-- BenchmarkTask.acquire (models.py lines 109-117). -/
def acquire (t : BenchmarkTask) (assignee : String) (now : Int) : BenchmarkTask :=
  { t with
    state := TaskState.assigned
    assignee := some assignee
    assignedAt := some now
    updatedAt := some now }

/-- BenchmarkTask.abandon (models.py lines 119-126). -/
def abandon (t : BenchmarkTask) : BenchmarkTask :=
  { t with
    state := TaskState.pending
    assignedAt := Option.none
    updatedAt := Option.none
    assignee := Option.none }

/-- BenchmarkTask.buildPoke (models.py lines 128-134). -/
def buildPoke (t : BenchmarkTask) (now : Int) (output : PyVal) : BenchmarkTask :=
  { t with updatedAt := some now, buildOutput := output }

/-- BenchmarkTask.poke (models.py lines 136-142). -/
def poke (t : BenchmarkTask) (now : Int) (output : PyVal) : BenchmarkTask :=
  { t with updatedAt := some now, output := output }

/-- BenchmarkTask.finish (models.py lines 144-152). The method takes exactly
four positional parameters after self. -/
def finish (t : BenchmarkTask) (exitcode output stats result : PyVal) : BenchmarkTask :=
  { t with
    state := TaskState.evaluated
    exitcode := exitcode
    output := output
    stats := stats
    result := result }

/-- The task-mutating operations of models.py gathered as one step type, to
quantify over everything the runner may do to a task row. -/
inductive TaskOp where
  | acquire (assignee : String) (now : Int)
  | abandon
  | buildPoke (now : Int) (output : PyVal)
  | poke (now : Int) (output : PyVal)
  | finish (exitcode output stats result : PyVal)

/-- Apply a task operation to a task row. -/
def TaskOp.apply : TaskOp → BenchmarkTask → BenchmarkTask
  | TaskOp.acquire a now, t => Surveyor.acquire t a now
  | TaskOp.abandon, t => Surveyor.abandon t
  | TaskOp.buildPoke now o, t => Surveyor.buildPoke t now o
  | TaskOp.poke now o, t => Surveyor.poke t now o
  | TaskOp.finish e o s r, t => Surveyor.finish t e o s r

/-- A concrete task row, used to evaluate the model on explicit inputs. -/
def exampleEnv : RuntimeEnv :=
  { id := 1, cpuLimit := 1, memoryLimit := 1024, cpuTimeLimit := 60,
    wallClockTimeLimit := 60 }

/-- A concrete assigned task row. -/
def exampleTask : BenchmarkTask :=
  { id := 7
    state := TaskState.assigned
    command := "true"
    assignedAt := some 100
    updatedAt := some 100
    assignee := some "runner-a"
    exitcode := PyVal.none
    buildOutput := PyVal.none
    output := PyVal.str "before"
    stats := PyVal.none
    result := PyVal.none
    env := exampleEnv }

/-- The join filter of BenchmarkTask.fetchNew (models.py lines 89-92): the limits
of the environment of the task fit within the available resources. -/
def fits (t : BenchmarkTask) (availableCores availableMemory : Int) : Bool :=
  decide (t.env.cpuLimit ≤ availableCores) && decide (t.env.memoryLimit ≤ availableMemory)

/-- The staleness filter of fetchNew (models.py lines 101-104): updatedAt at most
the threshold time. An SQL comparison against a NULL column is not satisfied. -/
def staleAt (t : BenchmarkTask) (threshold : Int) : Bool :=
  match t.updatedAt with
  | Option.none => false
  | some u => decide (u ≤ threshold)

/-- BenchmarkTask.fetchNew (models.py lines 82-107). The database is a list of
task rows; order_by(id).limit(1).first() is the id-argmin of the filtered rows.
First the least-id pending row fitting the limits; if none, the least-id
assigned row fitting the limits whose updatedAt is at least 5 minutes (300
seconds) before now; else none. -/
def fetchNew (db : List BenchmarkTask) (availableCores availableMemory : Int)
    (now : Int) : Option BenchmarkTask :=
  let base := db.filter (fun t => fits t availableCores availableMemory)
  match (base.filter (fun t => decide (t.state = TaskState.pending))).argmin
      (fun t => t.id) with
  | some task => some task
  | Option.none =>
      (base.filter (fun t =>
          decide (t.state = TaskState.assigned) && staleAt t (now - 300))).argmin
        (fun t => t.id)

/-- Pointwise update of the availableResources dict of the ResourceManager
(runner.py line 76 and line 82). -/
def updateCounter (avail : String → Int) (r : String) (v : Int) : String → Int :=
  fun k => if k = r then v else avail k

/-- The acquisition loop of ResourceManager.capture (runner.py lines 72-76), run
under the mutex: walk the requested loan in order; at the first key whose
available counter is below the requested amount, raise NotEnoughResources with
that key, ending the loop with the counters as mutated so far; otherwise
decrement every requested counter. Returns the raised key, if any, together
with the counter map as it stands when the loop ends. -/
def captureEnter : List (String × Int) → (String → Int) → Option String × (String → Int)
  | [], avail => (Option.none, avail)
  | (r, v) :: rest, avail =>
      if avail r < v then (some r, avail)
      else captureEnter rest (updateCounter avail r (avail r - v))

/-- The release loop in the finally block of ResourceManager.capture (runner.py
lines 79-82): increment every counter of the loan back. -/
def captureExit : List (String × Int) → (String → Int) → (String → Int)
  | [], avail => avail
  | (r, v) :: rest, avail => captureExit rest (updateCounter avail r (avail r + v))

/-- Outcome of a Python call: a value, or the TypeError Python raises when the
positional argument count of a call differs from the parameter count of the
callee. -/
inductive PyCall (α : Type) where
  | ok (a : α)
  | typeError

/-- Positional call of the bound method BenchmarkTask.finish: the signature
(models.py line 144) takes exactly four positional arguments after self; any
other count raises TypeError. -/
def callFinish (t : BenchmarkTask) (args : List PyVal) : PyCall BenchmarkTask :=
  match args with
  | [e, o, s, r] => PyCall.ok (finish t e o s r)
  | _ => PyCall.typeError

/-- The EnvironmentBuildError handler of evaluateTask (runner.py line 282): it
runs task.finish(1, str(e), None, None, None), a positional call carrying five
arguments. -/
def evaluateTaskOnBuildError (t : BenchmarkTask) (msg : String) : PyCall BenchmarkTask :=
  callFinish t [PyVal.int 1, PyVal.str msg, PyVal.none, PyVal.none, PyVal.none]

/-- The contents of path/results.json as seen by extractArtefact: the file is
missing, present but not valid JSON, or parses to a JSON value. -/
inductive ArtefactFile where
  | missing
  | malformed
  | parsed (j : Json)

/-- A Python exception escaping a modelled fragment of the runner. -/
inductive PyExn where
  | jsonDecodeError
  | typeError

/-- extractArtefact (runner.py lines 219-227): json.load of path/results.json.
Only FileNotFoundError is caught, yielding the empty dict; a JSON decode error
propagates to the caller. -/
def extractArtefact (file : ArtefactFile) : Except PyExn Json :=
  match file with
  | ArtefactFile.missing => Except.ok (Json.obj [])
  | ArtefactFile.malformed => Except.error PyExn.jsonDecodeError
  | ArtefactFile.parsed j => Except.ok j

/-- The stats dictionary executeTask builds (runner.py lines 263-265): only the
oomKilled key. -/
def executeStats (oomKilled : Bool) : Json :=
  Json.obj [("oomKilled", Json.bool oomKilled)]

/-- The completion steps of executeTask once the container has exited (runner.py
lines 259-269): read the artefact from the mounted directory, then run
task.finish(exitcode, output, runtime, stats, result), a positional call
carrying five arguments. -/
def executeTaskFinishStep (t : BenchmarkTask) (exitcode : Int) (output : String)
    (runtime : Int) (oomKilled : Bool) (file : ArtefactFile) :
    Except PyExn BenchmarkTask :=
  match extractArtefact file with
  | Except.error e => Except.error e
  | Except.ok result =>
      match callFinish t [PyVal.int exitcode, PyVal.str output, PyVal.int runtime,
          PyVal.json (executeStats oomKilled), PyVal.json result] with
      | PyCall.ok t2 => Except.ok t2
      | PyCall.typeError => Except.error PyExn.typeError

/-- The keys of a JSON object, for stating which fields a stats object carries. -/
def Json.keys : Json → List String
  | Json.obj fields => fields.map (fun f => f.1)
  | _ => []

/-- Python timedelta normalization: for a difference of usec microseconds,
delta.seconds is the seconds component after removing whole days, in the range
0 to 86399. -/
def tdSeconds (usec : Int) : Int := usec % 86400000000 / 1000000

/-- Python timedelta normalization: delta.microseconds is the microseconds
component, in the range 0 to 999999. -/
def tdMicroseconds (usec : Int) : Int := usec % 1000000

/-- containerRunTime (podman.py lines 269-278). Timestamps are in microseconds
since the Unix epoch; now is the current UTC time, substituted for the finish
time when the parsed FinishedAt has a negative Unix timestamp. The return value
is delta.seconds * 1000000 + delta.microseconds of the difference. -/
def containerRunTime (startedAt finishedAt now : Int) : Int :=
  let finished := if finishedAt < 0 then now else finishedAt
  tdSeconds (finished - startedAt) * 1000000 + tdMicroseconds (finished - startedAt)

/-- One poll-loop inspection of runAndWatch: whether the container status is
running, the containerRunTime of the inspection, the usage_usec counter of
cpu.stat of the watched cgroup, and its memory.current reading. -/
structure Obs where
  running : Bool
  wallTime : Int
  cpuUsec : Int
  memCurrent : Int
  deriving DecidableEq, Repr

/-- What the watch phase of runAndWatch delivers: the timeout flag and maximum
memory accumulated by the loop, and the grace periods of the stopContainer
calls it issued. -/
structure WatchResult where
  timeout : Bool
  maxMemory : Int
  stops : List Int
  deriving DecidableEq, Repr

/-- The limit test of runAndWatch (podman.py line 341): wall time at least
wallClockLimit * 10^6 microseconds, or cgroup cpu usage at least
cpuClockLimit * 10^6 microseconds. -/
def overLimit (wallClockLimit cpuClockLimit : Int) (o : Obs) : Bool :=
  decide (wallClockLimit * 1000000 ≤ o.wallTime) ||
  decide (cpuClockLimit * 1000000 ≤ o.cpuUsec)

/-- The watch loop of runAndWatch (podman.py lines 327-343) over a trace of
inspections: poll until the first inspection whose status is not running, then
return the accumulated state; while running, update the maximum memory and, on
a limit hit, call stopContainer with a 1 second grace and set the timeout flag.
Returns none when the trace ends with the container still running, since the
real loop would keep polling. -/
def runAndWatchLoop (wallClockLimit cpuClockLimit : Int) :
    List Obs → Bool → Int → List Int → Option WatchResult
  | [], _, _, _ => Option.none
  | o :: rest, timeout, maxMem, stops =>
      if o.running = false then some ⟨timeout, maxMem, stops⟩
      else if overLimit wallClockLimit cpuClockLimit o then
        runAndWatchLoop wallClockLimit cpuClockLimit rest true
          (max maxMem o.memCurrent) (stops ++ [1])
      else
        runAndWatchLoop wallClockLimit cpuClockLimit rest timeout
          (max maxMem o.memCurrent) stops

/-- The watch phase of runAndWatch (podman.py lines 307-356) from container
start, with the initial flags of the source: timeout false, no memory seen, no
stops issued. The timeout flag of the result is what the final stats dictionary
carries. -/
def runAndWatch (wallClockLimit cpuClockLimit : Int) (trace : List Obs) :
    Option WatchResult :=
  runAndWatchLoop wallClockLimit cpuClockLimit trace false 0 []

/-- The continuation a caller of getImage leaves the mutex-protected section
with (runner.py lines 152-160): an already-resolved future for the image name,
waiting on the installed condition variable, or submitting _buildContainer to
the pool. -/
inductive GetImageRole where
  | resolved
  | waiter
  | builder
  deriving DecidableEq, Repr

/-- The mutex-protected section of getImage for one environment: from whether
the image is available and whether a build is recorded as in progress, the new
in-progress flag and the role of the caller. -/
def getImageCritical (available inProgress : Bool) : Bool × GetImageRole :=
  if available then (inProgress, GetImageRole.resolved)
  else if inProgress then (true, GetImageRole.waiter)
  else (true, GetImageRole.builder)

/-- A sequence of getImage critical sections for one environment whose image is
absent throughout and whose build does not complete in between; the reentrant
mutex serializes concurrent calls into such a sequence. Returns the final
in-progress flag and the roles handed out, in order. -/
def getImageCalls : Nat → Bool → Bool × List GetImageRole
  | 0, s => (s, [])
  | Nat.succ n, s =>
      let step := getImageCritical false s
      let rest := getImageCalls n step.1
      (rest.1, step.2 :: rest.2)

/-- The step a waiter takes after its condition variable wait returns (runner.py
lines 161-167): if the image is now present, a resolved future holding the
image name; otherwise the source evaluates self.getImage(self, env), a
positional call carrying two arguments. -/
inductive WakeStep where
  | resolvedFuture (imageName : String)
  | getImageCall (argCountAfterSelf : Nat)
  deriving DecidableEq, Repr

/-- The waiter branch of getImage after waking (runner.py lines 164-167). -/
def getImageAfterWake (availableNow : Bool) (envName : String) : WakeStep :=
  if availableNow then WakeStep.resolvedFuture envName
  else WakeStep.getImageCall 2

/-- The positional parameter count of getImage after self (runner.py line 143:
getImage takes self and env). -/
def getImageParamCount : Nat := 1

/-- A Python positional call raises TypeError exactly when the argument count
differs from the parameter count of the callee. -/
def callRaisesTypeError (paramCount argCount : Nat) : Bool :=
  decide (argCount ≠ paramCount)

/-- A concrete availableResources map, as built by the run command: one job
slot, four cores, two memory units. -/
def availExample : String → Int :=
  fun k => if k = "job" then 1 else if k = "cpu" then 4 else if k = "mem" then 2 else 0

/-- A concrete pending task row whose environment fits four cores and 2048
memory units. -/
def examplePending : BenchmarkTask :=
  { exampleTask with
    id := 3
    state := TaskState.pending
    assignedAt := Option.none
    updatedAt := Option.none
    assignee := Option.none }

/-- Claim C1, evaluated at a failing input. The availableResources map holds
cpu 4 and mem 2; capture of cpu 2 and mem 5 raises NotEnoughResources for mem,
as the claim states, but the cpu counter has already been decremented from 4 to
2 when the exception is raised and is never restored (the release loop of the
finally block is unreachable, the exception precedes the yield): the counters
are not left exactly as they were before the call, so the no-partial-holds part
of the claim fails on the code. -/
theorem capture_partial_hold :
    (captureEnter [("cpu", 2), ("mem", 5)] availExample).1 = some "mem" ∧
    availExample "cpu" = 4 ∧
    (captureEnter [("cpu", 2), ("mem", 5)] availExample).2 "cpu" = 2 ∧
    (captureEnter [("cpu", 2), ("mem", 5)] availExample).2 "cpu" ≠ availExample "cpu" := by
  refine ⟨by decide, by decide, by decide, by decide⟩

/-- Claim C2: fetchNew considers only tasks whose environment fits the available
cores and memory, and returns the least-id pending one; only if no fitting
pending task exists does it return the least-id fitting assigned task whose
updatedAt is at least 5 minutes (300 seconds) in the past; it returns none when
neither exists. -/
theorem fetchNew_spec (db : List BenchmarkTask) (cores mem now : Int) :
    (∀ t : BenchmarkTask, fetchNew db cores mem now = some t →
      t ∈ db ∧ fits t cores mem = true ∧
      ((t.state = TaskState.pending ∧
          ∀ u ∈ db, fits u cores mem = true → u.state = TaskState.pending →
            t.id ≤ u.id) ∨
        ((¬ ∃ u ∈ db, fits u cores mem = true ∧ u.state = TaskState.pending) ∧
          t.state = TaskState.assigned ∧ staleAt t (now - 300) = true ∧
          ∀ u ∈ db, fits u cores mem = true → u.state = TaskState.assigned →
            staleAt u (now - 300) = true → t.id ≤ u.id))) ∧
    (fetchNew db cores mem now = Option.none ↔
      ((¬ ∃ u ∈ db, fits u cores mem = true ∧ u.state = TaskState.pending) ∧
       (¬ ∃ u ∈ db, fits u cores mem = true ∧ u.state = TaskState.assigned ∧
          staleAt u (now - 300) = true))) := by
  have hmemP : ∀ u : BenchmarkTask,
      u ∈ (db.filter (fun t => fits t cores mem)).filter
            (fun t => decide (t.state = TaskState.pending)) ↔
      u ∈ db ∧ fits u cores mem = true ∧ u.state = TaskState.pending := by
    intro u
    simp only [List.mem_filter, decide_eq_true_eq, Bool.and_eq_true, and_assoc]
  have hmemA : ∀ u : BenchmarkTask,
      u ∈ (db.filter (fun t => fits t cores mem)).filter
            (fun t => decide (t.state = TaskState.assigned) && staleAt t (now - 300)) ↔
      u ∈ db ∧ fits u cores mem = true ∧ u.state = TaskState.assigned ∧
        staleAt u (now - 300) = true := by
    intro u
    simp only [List.mem_filter, decide_eq_true_eq, Bool.and_eq_true, and_assoc]
  rw [fetchNew]
  cases hp : ((db.filter (fun t => fits t cores mem)).filter
      (fun t => decide (t.state = TaskState.pending))).argmin (fun t => t.id) with
  | some q =>
    simp only [hp]
    constructor
    · intro t ht
      have htq : t = q := by
        simpa using ht.symm
      subst htq
      have hq : t ∈ ((db.filter (fun t => fits t cores mem)).filter
          (fun t => decide (t.state = TaskState.pending))).argmin (fun t => t.id) := by
        rw [hp]; rfl
      have hmem := (hmemP t).mp (List.argmin_mem hq)
      refine ⟨hmem.1, hmem.2.1, Or.inl ⟨hmem.2.2, ?_⟩⟩
      intro u hu hfit hpend
      exact List.le_of_mem_argmin ((hmemP u).mpr ⟨hu, hfit, hpend⟩) hq
    · constructor
      · intro h; exact absurd h (by simp)
      · rintro ⟨h1, _⟩
        have hq : q ∈ ((db.filter (fun t => fits t cores mem)).filter
            (fun t => decide (t.state = TaskState.pending))).argmin (fun t => t.id) := by
          rw [hp]; rfl
        have hmem := (hmemP q).mp (List.argmin_mem hq)
        exact absurd ⟨q, hmem.1, hmem.2.1, hmem.2.2⟩ h1
  | none =>
    have hPnil : (db.filter (fun t => fits t cores mem)).filter
        (fun t => decide (t.state = TaskState.pending)) = [] :=
      List.argmin_eq_none.mp hp
    have hnopending : ¬ ∃ u ∈ db, fits u cores mem = true ∧ u.state = TaskState.pending := by
      rintro ⟨u, hu, hfit, hpend⟩
      have : u ∈ ([] : List BenchmarkTask) := hPnil ▸ (hmemP u).mpr ⟨hu, hfit, hpend⟩
      simp at this
    simp only [hp]
    constructor
    · intro t ht
      have ht2 : t ∈ ((db.filter (fun t => fits t cores mem)).filter
          (fun t => decide (t.state = TaskState.assigned) && staleAt t (now - 300))).argmin
            (fun t => t.id) := ht
      have hmem := (hmemA t).mp (List.argmin_mem ht2)
      refine ⟨hmem.1, hmem.2.1, Or.inr ⟨hnopending, hmem.2.2.1, hmem.2.2.2, ?_⟩⟩
      intro u hu hfit hassg hstale
      exact List.le_of_mem_argmin ((hmemA u).mpr ⟨hu, hfit, hassg, hstale⟩) ht2
    · constructor
      · intro h
        refine ⟨hnopending, ?_⟩
        rintro ⟨u, hu, hfit, hassg, hstale⟩
        have hmem := (hmemA u).mpr ⟨hu, hfit, hassg, hstale⟩
        rcases hq : ((db.filter (fun t => fits t cores mem)).filter
            (fun t => decide (t.state = TaskState.assigned) && staleAt t (now - 300))).argmin
              (fun t => t.id) with _ | q
        · have : (db.filter (fun t => fits t cores mem)).filter
              (fun t => decide (t.state = TaskState.assigned) && staleAt t (now - 300)) = [] :=
            List.argmin_eq_none.mp hq
          rw [this] at hmem
          simp at hmem
        · rw [hq] at h
          exact absurd h (by simp)
      · rintro ⟨_, h2⟩
        rcases hq : ((db.filter (fun t => fits t cores mem)).filter
            (fun t => decide (t.state = TaskState.assigned) && staleAt t (now - 300))).argmin
              (fun t => t.id) with _ | q
        · exact hq
        · have hqm : q ∈ ((db.filter (fun t => fits t cores mem)).filter
              (fun t => decide (t.state = TaskState.assigned) && staleAt t (now - 300))).argmin
                (fun t => t.id) := by
            rw [hq]; rfl
          have hmem := (hmemA q).mp (List.argmin_mem hqm)
          exact absurd ⟨q, hmem.1, hmem.2.1, hmem.2.2.1, hmem.2.2.2⟩ h2

/-- Witness for C2: fetchNew on a one-element database returns that pending row,
discharging the hypothesis of the main theorem at a concrete input. -/
theorem fetchNew_spec_witness :
    examplePending ∈ [examplePending] ∧ fits examplePending 4 2048 = true :=
  let h := (fetchNew_spec [examplePending] 4 2048 1000).1 examplePending rfl
  ⟨h.1, h.2.1⟩

/-- Claim C3, evaluated on the code: the EnvironmentBuildError handler of
evaluateTask calls finish with five positional arguments while the method takes
four, so the call raises TypeError instead of finishing the task; the task does
not reach the evaluated state. -/
theorem evaluateTask_build_error_raises :
    evaluateTaskOnBuildError exampleTask "Build of environment 1 has failed" =
      PyCall.typeError ∧
    callRaisesTypeError 4 5 = true ∧
    exampleTask.state ≠ TaskState.evaluated := by
  refine ⟨rfl, by decide, by decide⟩

/-- Counterexample to C4: poke writes the output column, so output is not
written only by finish. -/
theorem poke_writes_output :
    (poke exampleTask 200 (PyVal.str "after")).output ≠ exampleTask.output := by
  show PyVal.str "after" ≠ PyVal.str "before"
  intro h
  injection h with h2
  exact absurd h2 (by decide)

/-- Claim C4 as amended: exitcode, stats and result are written only by finish;
acquire, abandon and buildPoke write none of the four result columns; poke
preserves exitcode, stats and result but writes output. -/
theorem result_columns_frame :
    (∀ (t : BenchmarkTask) (a : String) (now : Int),
      (acquire t a now).exitcode = t.exitcode ∧ (acquire t a now).output = t.output ∧
      (acquire t a now).stats = t.stats ∧ (acquire t a now).result = t.result) ∧
    (∀ t : BenchmarkTask,
      (abandon t).exitcode = t.exitcode ∧ (abandon t).output = t.output ∧
      (abandon t).stats = t.stats ∧ (abandon t).result = t.result) ∧
    (∀ (t : BenchmarkTask) (now : Int) (o : PyVal),
      (buildPoke t now o).exitcode = t.exitcode ∧ (buildPoke t now o).output = t.output ∧
      (buildPoke t now o).stats = t.stats ∧ (buildPoke t now o).result = t.result) ∧
    (∀ (t : BenchmarkTask) (now : Int) (o : PyVal),
      (poke t now o).exitcode = t.exitcode ∧ (poke t now o).stats = t.stats ∧
      (poke t now o).result = t.result) :=
  ⟨fun _ _ _ => ⟨rfl, rfl, rfl, rfl⟩, fun _ => ⟨rfl, rfl, rfl, rfl⟩,
    fun _ _ _ => ⟨rfl, rfl, rfl, rfl⟩, fun _ _ _ => ⟨rfl, rfl, rfl⟩⟩

/-- Counterexample to C5: with results.json missing, extractArtefact returns the
empty JSON object, not null, and the subsequent finish call of executeTask
raises TypeError, so the task does not finish at all. -/
theorem artefact_missing_no_finish :
    executeTaskFinishStep exampleTask 0 "" 0 false ArtefactFile.missing =
      Except.error PyExn.typeError ∧
    extractArtefact ArtefactFile.missing ≠ Except.ok Json.null := by
  refine ⟨rfl, ?_⟩
  intro h
  injection h with h2
  exact Json.noConfusion h2

/-- Claim C5 as amended: a missing results.json yields the empty JSON object as
the artefact (FileNotFoundError is the only exception caught) and the stats
dictionary carries only the oomKilled key, never an artefactError; a malformed
results.json raises a JSON decode error that propagates; and in every case the
completion step of executeTask ends in an exception rather than a finished
task, because its finish call passes five positional arguments to the
four-argument finish. -/
theorem extractArtefact_behaviour :
    extractArtefact ArtefactFile.missing = Except.ok (Json.obj []) ∧
    extractArtefact ArtefactFile.malformed = Except.error PyExn.jsonDecodeError ∧
    (∀ b : Bool, (executeStats b).keys = ["oomKilled"]) ∧
    (∀ (t : BenchmarkTask) (ec rt : Int) (out : String) (oom : Bool) (file : ArtefactFile),
      ∃ e : PyExn, executeTaskFinishStep t ec out rt oom file = Except.error e) := by
  refine ⟨rfl, rfl, fun b => rfl, ?_⟩
  intro t ec rt out oom file
  cases file with
  | missing => exact ⟨PyExn.typeError, rfl⟩
  | malformed => exact ⟨PyExn.jsonDecodeError, rfl⟩
  | parsed j => exact ⟨PyExn.typeError, rfl⟩

/-- Claim C6, evaluated on the code: a waiter that wakes and finds the image
present returns a resolved future, as the claim states; but a waiter that wakes
after a failed build reaches the retry line, which passes the manager instance
as an extra positional argument to getImage (two arguments against one), so the
retry raises TypeError instead of retrying. -/
theorem getImage_wake_step :
    getImageAfterWake true "surveyor-env-1-0a1b2c3d" =
      WakeStep.resolvedFuture "surveyor-env-1-0a1b2c3d" ∧
    getImageAfterWake false "surveyor-env-1-0a1b2c3d" = WakeStep.getImageCall 2 ∧
    callRaisesTypeError getImageParamCount 2 = true := by
  refine ⟨by decide, by decide, by decide⟩

/-- Claim C7: acquire followed by abandon returns the task to pending with null
assignee, assignedAt and updatedAt; and any task operation that takes an
assigned task to pending nulls those three fields. -/
theorem acquire_abandon_roundtrip :
    (∀ (t : BenchmarkTask) (a : String) (now : Int),
      (abandon (acquire t a now)).state = TaskState.pending ∧
      (abandon (acquire t a now)).assignee = Option.none ∧
      (abandon (acquire t a now)).assignedAt = Option.none ∧
      (abandon (acquire t a now)).updatedAt = Option.none) ∧
    (∀ (op : TaskOp) (t : BenchmarkTask),
      t.state = TaskState.assigned → (op.apply t).state = TaskState.pending →
      (op.apply t).assignee = Option.none ∧ (op.apply t).assignedAt = Option.none ∧
      (op.apply t).updatedAt = Option.none) := by
  refine ⟨fun t a now => ⟨rfl, rfl, rfl, rfl⟩, ?_⟩
  intro op t hassigned hpending
  cases op with
  | acquire a2 n2 =>
      have h2 : TaskState.assigned = TaskState.pending := hpending
      exact TaskState.noConfusion h2
  | abandon => exact ⟨rfl, rfl, rfl⟩
  | buildPoke n2 o2 =>
      have h2 : t.state = TaskState.pending := hpending
      rw [hassigned] at h2
      exact TaskState.noConfusion h2
  | poke n2 o2 =>
      have h2 : t.state = TaskState.pending := hpending
      rw [hassigned] at h2
      exact TaskState.noConfusion h2
  | finish e o s r =>
      have h2 : TaskState.evaluated = TaskState.pending := hpending
      exact TaskState.noConfusion h2

/-- Witness for C7: abandoning the concrete assigned task nulls the three
fields, discharging both hypotheses of the main theorem at a concrete input. -/
theorem acquire_abandon_roundtrip_witness :
    (TaskOp.abandon.apply exampleTask).assignee = Option.none ∧
    (TaskOp.abandon.apply exampleTask).assignedAt = Option.none ∧
    (TaskOp.abandon.apply exampleTask).updatedAt = Option.none :=
  acquire_abandon_roundtrip.2 TaskOp.abandon exampleTask rfl rfl

/-- Claim C8, evaluated at a failing input: a container started at the epoch and
finished one day and one second later ran for 86401000000 microseconds, but
containerRunTime reports 1000000, because delta.seconds drops whole days; the
difference is not returned in microseconds. -/
theorem containerRunTime_day_truncated :
    containerRunTime 0 86401000000 0 = 1000000 ∧
    (1000000 : Int) ≠ 86401000000 - 0 := by
  refine ⟨by decide, by decide⟩

/-- What containerRunTime actually computes: the difference, with now
substituted when the finish timestamp is strictly negative, reduced modulo one
day of microseconds; for a non-negative difference below one day this is the
exact difference in microseconds. -/
theorem containerRunTime_mod_day (s f now : Int) :
    containerRunTime s f now = ((if f < 0 then now else f) - s) % 86400000000 ∧
    (0 ≤ f → 0 ≤ f - s → f - s < 86400000000 → containerRunTime s f now = f - s) := by
  by_cases hf : f < 0
  · constructor
    · simp only [containerRunTime, tdSeconds, tdMicroseconds, if_pos hf]
      omega
    · intro h0 _ _
      exact absurd hf (not_lt.mpr h0)
  · constructor
    · simp only [containerRunTime, tdSeconds, tdMicroseconds, if_neg hf]
      omega
    · intro _ h1 h2
      simp only [containerRunTime, tdSeconds, tdMicroseconds, if_neg hf]
      omega

/-- Witness for the containerRunTime behaviour theorem at a concrete sub-day
input. -/
theorem containerRunTime_mod_day_witness :
    containerRunTime 0 5000000 3 = 5000000 :=
  (containerRunTime_mod_day 0 5000000 3).2 (by decide) (by decide) (by decide)

/-- The watch loop never clears an accumulated timeout flag and never drops an
issued stop call. -/
theorem runAndWatchLoop_some_facts (wl cl : Int) :
    ∀ (trace : List Obs) (tm : Bool) (mm : Int) (st : List Int) (res : WatchResult),
      runAndWatchLoop wl cl trace tm mm st = some res →
      (tm = true → res.timeout = true) ∧ (∀ g : Int, g ∈ st → g ∈ res.stops) := by
  intro trace
  induction trace with
  | nil =>
      intro tm mm st res h
      rw [runAndWatchLoop] at h
      exact Option.noConfusion h
  | cons o rest ih =>
      intro tm mm st res h
      rw [runAndWatchLoop] at h
      by_cases hr : o.running = false
      · rw [if_pos hr] at h
        injection h with h2
        constructor
        · intro htm; rw [← h2]; exact htm
        · intro g hg; rw [← h2]; exact hg
      · rw [if_neg hr] at h
        by_cases ho : overLimit wl cl o = true
        · rw [if_pos ho] at h
          have hrec := ih true (max mm o.memCurrent) (st ++ [1]) res h
          constructor
          · intro _; exact hrec.1 rfl
          · intro g hg; exact hrec.2 g (List.mem_append_left _ hg)
        · rw [if_neg ho] at h
          exact ih tm (max mm o.memCurrent) st res h

/-- If some inspection in the running prefix of the trace exceeds a limit, the
watch loop returns with the timeout flag set and a stop with grace 1 issued. -/
theorem runAndWatchLoop_timeout (wl cl : Int) :
    ∀ (trace : List Obs) (tm : Bool) (mm : Int) (st : List Int) (res : WatchResult),
      runAndWatchLoop wl cl trace tm mm st = some res →
      (∃ o ∈ trace.takeWhile (fun o => o.running), overLimit wl cl o = true) →
      res.timeout = true ∧ (1 : Int) ∈ res.stops := by
  intro trace
  induction trace with
  | nil =>
      intro tm mm st res h hover
      rw [runAndWatchLoop] at h
      exact Option.noConfusion h
  | cons o rest ih =>
      intro tm mm st res h hover
      rw [runAndWatchLoop] at h
      by_cases hr : o.running = false
      · rw [List.takeWhile_cons, if_neg (by simp [hr])] at hover
        rcases hover with ⟨o2, hmem, _⟩
        exact absurd hmem (List.not_mem_nil o2)
      · have hrt : o.running = true := by
          revert hr; cases o.running <;> simp
        rw [if_neg hr] at h
        by_cases ho : overLimit wl cl o = true
        · rw [if_pos ho] at h
          have hf := runAndWatchLoop_some_facts wl cl rest true (max mm o.memCurrent)
            (st ++ [1]) res h
          exact ⟨hf.1 rfl, hf.2 1 (List.mem_append_right _ (by simp))⟩
        · rw [if_neg ho] at h
          apply ih tm (max mm o.memCurrent) st res h
          rw [List.takeWhile_cons, if_pos (by simp [hrt])] at hover
          rcases hover with ⟨o2, hmem, hover2⟩
          rcases List.mem_cons.mp hmem with he | hm
          · rw [he] at hover2
            exact absurd hover2 ho
          · exact ⟨o2, hm, hover2⟩

/-- Claim C9: whenever an inspection taken while the container is running shows
wall time at least wallClockLimit times 10^6 microseconds or cgroup cpu usage
at least cpuClockLimit times 10^6 microseconds, the container is stopped with a
1 second grace period and the stats returned after exit carry timeout true. -/
theorem runAndWatch_timeout_flag (wl cl : Int) (trace : List Obs) (res : WatchResult)
    (hres : runAndWatch wl cl trace = some res)
    (hover : ∃ o ∈ trace.takeWhile (fun o => o.running), overLimit wl cl o = true) :
    res.timeout = true ∧ (1 : Int) ∈ res.stops :=
  runAndWatchLoop_timeout wl cl trace false 0 [] res hres hover

/-- Witness for C9 on a concrete trace: one running inspection over the wall
limit followed by the exit inspection, discharging both hypotheses of the main
theorem. -/
theorem runAndWatch_timeout_flag_witness :
    (⟨true, 5, [1]⟩ : WatchResult).timeout = true ∧
    (1 : Int) ∈ (⟨true, 5, [1]⟩ : WatchResult).stops :=
  runAndWatch_timeout_flag 2 1000
    [⟨true, 2000000, 0, 5⟩, ⟨false, 2500000, 0, 0⟩] ⟨true, 5, [1]⟩ (by decide)
    ⟨⟨true, 2000000, 0, 5⟩, by decide, by decide⟩

/-- While a build is recorded as in progress and the image stays absent, every
further getImage critical section hands out the waiter role and keeps the
in-progress flag set. -/
theorem getImageCalls_inProgress (n : Nat) :
    getImageCalls n true = (true, List.replicate n GetImageRole.waiter) := by
  induction n with
  | zero => rfl
  | succ m ih =>
      have hstep : getImageCalls (m + 1) true =
          ((getImageCalls m true).1, GetImageRole.waiter :: (getImageCalls m true).2) := rfl
      rw [hstep, ih]
      rfl

/-- Claim C10: among any number of getImage calls for one environment whose
image is absent, serialized by the manager mutex and with no build completion
in between, exactly one caller takes the builder role (submitting
_buildContainer to the pool) and all others take the waiter role, waiting on
the installed condition variable. -/
theorem getImage_single_flight (n : Nat) (h : 1 ≤ n) :
    ((getImageCalls n false).2.count GetImageRole.builder = 1) ∧
    ((getImageCalls n false).2.count GetImageRole.waiter = n - 1) ∧
    ((getImageCalls n false).1 = true) := by
  obtain ⟨m, rfl⟩ : ∃ m, n = m + 1 := ⟨n - 1, by omega⟩
  have hstep : getImageCalls (m + 1) false =
      ((getImageCalls m true).1, GetImageRole.builder :: (getImageCalls m true).2) := rfl
  rw [hstep, getImageCalls_inProgress m]
  refine ⟨?_, ?_, rfl⟩
  · simp [List.count_cons, List.count_replicate]
  · simp [List.count_cons, List.count_replicate]

/-- Witness for C10 with three concurrent calls: one builder, two waiters. -/
theorem getImage_single_flight_witness :
    ((getImageCalls 3 false).2.count GetImageRole.builder = 1) ∧
    ((getImageCalls 3 false).2.count GetImageRole.waiter = 3 - 1) ∧
    ((getImageCalls 3 false).1 = true) :=
  getImage_single_flight 3 (by decide)

end Surveyor
